import Mathlib

/-!
Verification of the foodgram backend (Django REST) against its specification.

The relevant parts of the Python source are shallowly embedded as executable
Lean definitions:

* database tables become lists of rows (`Db`);
* the serializer validation and write path of `api/serializers.py`
  (`RecipeSerializer.validate`, `check_ingredients_and_tags`,
  `create_ingredients`, `create_tags`, `create`, `update`) become pure
  functions returning `Except ValidationError`;
* `@transaction.atomic` becomes the all-or-nothing shape of the endpoint
  functions: on any error the original `Db` is returned unchanged;
* the shopping-cart aggregation of `api/views.py` and the PDF generator of
  `services/pdf_generator.py`, the short-link resolver of
  `services/redict_url.py` and `recipes/short_link_redirec.py`, the
  subscription constraints of `users/models.py`, and the short-code
  generation loop of `recipes/models.py` are embedded likewise.

Machine integers of the source are modelled as `Int`/`Nat` (the Python ints
are unbounded; the Django `PositiveSmallIntegerField` bound never overflows in
any code path modelled here, validation rejects non-positive amounts first).
-/

namespace Foodgram

/-- Row of the `Ingredient` catalog table (recipes/models.py, class
`Ingredient`): `name` is declared `unique=True`, and `(name,
measurement_unit)` carries a unique constraint. -/
structure Ingredient where
  id : Nat
  name : String
  measurement_unit : String
deriving DecidableEq, Repr

/-- Row of the `Recipe` table (recipes/models.py, class `Recipe`), scalar
fields only; associations live in the join tables below. -/
structure RecipeRow where
  id : Nat
  author : Nat
  name : String
  cooking_time : Int
deriving DecidableEq, Repr

/-- Row of the `RecipeIngredient` join table (recipes/models.py): unique on
`(recipe, ingredient)`. -/
structure RecipeIngredientRow where
  recipe : Nat
  ingredient : Nat
  amount : Int
deriving DecidableEq, Repr

/-- Row of the `RecipeTag` join table (recipes/models.py): unique on
`(recipe, tag)`. -/
structure RecipeTagRow where
  recipe : Nat
  tag : Nat
deriving DecidableEq, Repr

/-- The relational store, one list per table.  `tags` holds the ids of the
`Tag` catalog rows, `shoppingCart` and `favorites` hold `(user, recipe)`
membership pairs (models `ShoppingCart` and `Favorites`). -/
structure Db where
  ingredients : List Ingredient
  tags : List Nat
  recipes : List RecipeRow
  recipeIngredients : List RecipeIngredientRow
  recipeTags : List RecipeTagRow
  shoppingCart : List (Nat × Nat)
  favorites : List (Nat × Nat)
deriving DecidableEq, Repr

/-- One entry of the `ingredients` list of a recipe submission: a dict with
keys `id` and `amount` (api/serializers.py, `RecipeIngredientSerializer`). -/
structure IngredientItem where
  id : Nat
  amount : Int
deriving DecidableEq, Repr

/-- A recipe creation/update submission together with the requesting user
(`request.user.is_authenticated` is `authenticated`). -/
structure Submission where
  authenticated : Bool
  author : Nat
  name : String
  cooking_time : Int
  ingredients : List IngredientItem
  tags : List Nat
deriving DecidableEq, Repr

/-- The errors raised on the recipe write path: `ValidationError`s of
api/serializers.py plus the `Http404` of `get_object_or_404`. -/
inductive ValidationError where
  | notAuthenticated
  | noIngredients
  | noTags
  | missingTags
  | duplicateIngredient
  | missingIngredient (id : Nat)
  | nonPositiveAmount
  | nonPositiveCookingTime
  | duplicateRecipeName
  | recipeNotFound
deriving DecidableEq, Repr

/-- `Ingredient.objects.filter(id=ingredient_id).exists()`. -/
def ingredientExists (db : Db) (i : Nat) : Bool :=
  db.ingredients.any (fun x => x.id == i)

/-- The `for ingredient_item in ingredients` loop of
`RecipeSerializer.check_ingredients_and_tags` (api/serializers.py:243-261):
`seen` is the accumulating `ingredient_ids` set; a repeated id, an id absent
from the catalog, or a non-positive amount raises. -/
def checkIngredientItems (db : Db) (seen : List Nat) :
    List IngredientItem → Except ValidationError Unit
  | [] => .ok ()
  | item :: rest =>
    if item.id ∈ seen then .error .duplicateIngredient
    else if ¬ ingredientExists db item.id then .error (.missingIngredient item.id)
    else if item.amount ≤ 0 then .error .nonPositiveAmount
    else checkIngredientItems db (item.id :: seen) rest

/-- `RecipeSerializer.check_ingredients_and_tags` (api/serializers.py:228-261):
rejects an empty ingredient list, an empty tag list, submissions whose tag
list does not match the count of existing catalog tags (which also rejects
repeated tag ids), then runs the per-ingredient loop. -/
def check_ingredients_and_tags (db : Db) (ingredients : List IngredientItem)
    (tags : List Nat) : Except ValidationError Unit :=
  if ingredients.isEmpty then .error .noIngredients
  else if tags.isEmpty then .error .noTags
  else if (db.tags.filter (fun t => tags.contains t)).length ≠ tags.length then
    .error .missingTags
  else checkIngredientItems db [] ingredients

/-- `RecipeSerializer.check_recipe_name_uniqueness` (api/serializers.py:263-274):
only runs when the view has a `pk` kwarg (update), and rejects when another
recipe of the same author bears the submitted name. -/
def check_recipe_name_uniqueness (db : Db) (name : String) (author : Nat)
    (pk : Option Nat) : Except ValidationError Unit :=
  match pk with
  | none => .ok ()
  | some rid =>
    if db.recipes.any (fun r => r.name == name && r.author == author && r.id ≠ rid) then
      .error .duplicateRecipeName
    else .ok ()

/-- `RecipeSerializer.validate` (api/serializers.py:201-226): authentication
check, `check_ingredients_and_tags`, positive cooking time, then the name
uniqueness check. -/
def validate (db : Db) (sub : Submission) (pk : Option Nat) :
    Except ValidationError Unit :=
  if ¬ sub.authenticated then .error .notAuthenticated
  else
    match check_ingredients_and_tags db sub.ingredients sub.tags with
    | .error e => .error e
    | .ok _ =>
      if sub.cooking_time ≤ 0 then .error .nonPositiveCookingTime
      else check_recipe_name_uniqueness db sub.name sub.author pk

/-- `RecipeIngredient.objects.filter(recipe=recipe, ingredient=ingredient)`
non-emptiness. -/
def hasRow (rows : List RecipeIngredientRow) (rid iid : Nat) : Bool :=
  rows.any (fun r => r.recipe == rid && r.ingredient == iid)

/-- The `existing_recipe_ingredient.amount += amount; save()` branch of
`create_ingredients`: bump the first matching join row. -/
def bumpExisting : List RecipeIngredientRow → Nat → Nat → Int →
    List RecipeIngredientRow
  | [], _, _, _ => []
  | r :: rs, rid, iid, a =>
    if r.recipe == rid && r.ingredient == iid then
      { r with amount := r.amount + a } :: rs
    else r :: bumpExisting rs rid iid a

/-- `RecipeSerializer.create_ingredients` (api/serializers.py:276-301): for
each submitted item, `get_object_or_404` on the catalog, re-check the amount,
then either bump an existing `(recipe, ingredient)` join row or insert a new
one. -/
def create_ingredients (db : Db) (rid : Nat) :
    List IngredientItem → Except ValidationError Db
  | [] => .ok db
  | item :: rest =>
    if ¬ ingredientExists db item.id then .error (.missingIngredient item.id)
    else if item.amount ≤ 0 then .error .nonPositiveAmount
    else
      let rows := db.recipeIngredients
      let rows' := if hasRow rows rid item.id then
          bumpExisting rows rid item.id item.amount
        else rows ++ [⟨rid, item.id, item.amount⟩]
      create_ingredients { db with recipeIngredients := rows' } rid rest

/-- `RecipeSerializer.create_tags` (api/serializers.py:303-307):
`recipe.tags.set(existing_tags)` where `existing_tags` filters the catalog by
the submitted ids — a full replacement of the recipe's tag associations. -/
def create_tags (db : Db) (tags : List Nat) (rid : Nat) : Db :=
  let existing := db.tags.filter (fun t => tags.contains t)
  { db with recipeTags :=
      (db.recipeTags.filter (fun rt => ¬ rt.recipe == rid))
        ++ existing.map (fun t => ⟨rid, t⟩) }

/-- A value stored in the serializer's `validated_data` dict. -/
inductive PyVal where
  | tags (ts : List Nat)
  | items (its : List IngredientItem)
  | str (s : String)
  | int (i : Int)
deriving DecidableEq, Repr

/-- The `validated_data` dict DRF hands to `create`/`update`: it is keyed by
each field's `source`.  `RecipeSerializer` declares
`ingredients = RecipeIngredientSerializer(many=True,
source="recipe_ingredients")` (api/serializers.py:146-148), so the parsed
ingredient items sit under the key `recipe_ingredients` — there is no
`ingredients` key.  Keys appear in the serializer's field order (the `image`
and `text` entries, which follow and never influence the claims, are
omitted along with those scalar fields throughout the embedding). -/
def validatedData (sub : Submission) : List (String × PyVal) :=
  [("tags", .tags sub.tags),
    ("recipe_ingredients", .items sub.ingredients),
    ("name", .str sub.name),
    ("cooking_time", .int sub.cooking_time)]

/-- `dict.pop(key, default)`: the value under the key (removing the entry),
or the default when the key is absent (the dict unchanged). -/
def popKey (d : List (String × PyVal)) (k : String) (dflt : PyVal) :
    PyVal × List (String × PyVal) :=
  match d.find? (fun p => p.1 == k) with
  | some p => (p.2, d.filter (fun q => ¬ q.1 == k))
  | none => (dflt, d)

/-- The keyword arguments `Recipe(...)` accepts: the model's concrete fields
(recipes/models.py, class `Recipe`).  `recipe_ingredients` is a reverse
relation, not a field. -/
def recipeModelFields : List String :=
  ["id", "author", "name", "image", "text", "cooking_time", "pub_date"]

/-- Read a string value out of the kwargs dict. -/
def getStr (kwargs : List (String × PyVal)) (k : String) (dflt : String) :
    String :=
  match kwargs.find? (fun p => p.1 == k) with
  | some (_, .str s) => s
  | _ => dflt

/-- Read an integer value out of the kwargs dict. -/
def getInt (kwargs : List (String × PyVal)) (k : String) (dflt : Int) : Int :=
  match kwargs.find? (fun p => p.1 == k) with
  | some (_, .int i) => i
  | _ => dflt

/-- The errors of the recipe write path: serializer `ValidationError`s (and
the `Http404` of `get_object_or_404`), and the two `TypeError`s Django
raises when the leftover `recipe_ingredients` entry of `validated_data`
reaches the ORM — as an unexpected keyword argument of `Recipe(...)`, or as
a `setattr` on the reverse-relation descriptor. -/
inductive WriteError where
  | validation (e : ValidationError)
  | typeErrorUnexpectedKwarg (key : String)
  | typeErrorReverseAssignment (key : String)
deriving DecidableEq, Repr

/-- `Recipe.objects.create(image=image, **validated_data)`
(api/serializers.py:315): `Model.__init__` accepts only the model's
concrete fields as keyword arguments; any leftover key — here the unpopped
`recipe_ingredients` — raises TypeError before the INSERT, so no `Recipe`
row is written.  When every key is a model field, the row is inserted with
the submitted scalar values. -/
def objectsCreate (db : Db) (rid author : Nat)
    (kwargs : List (String × PyVal)) : Except WriteError Db :=
  match kwargs.find? (fun p => ¬ recipeModelFields.contains p.1) with
  | some p => .error (.typeErrorUnexpectedKwarg p.1)
  | none =>
    .ok { db with recipes := db.recipes
      ++ [⟨rid, author, getStr kwargs "name" "",
            getInt kwargs "cooking_time" 0⟩] }

/-- Body of `RecipeSerializer.create` (api/serializers.py:309-319), run
under `@transaction.atomic` by `recipeCreateEndpoint`: pop `tags`, pop
`ingredients` — which yields the default `[]`, the parsed items being keyed
`recipe_ingredients` — then `Recipe.objects.create` with the remaining
dict, then `create_tags` and `create_ingredients` on the popped values.
For every `RecipeSerializer` submission the `recipe_ingredients` entry is
left over, so `objectsCreate` raises TypeError and the continuation is
unreachable. -/
def createBody (db : Db) (sub : Submission) (rid : Nat) :
    Except WriteError Db :=
  let tagsPop := popKey (validatedData sub) "tags" (.tags [])
  let ingsPop := popKey tagsPop.2 "ingredients" (.items [])
  let tags_data := match tagsPop.1 with | .tags l => l | _ => []
  let ingredients_data := match ingsPop.1 with | .items l => l | _ => []
  match objectsCreate db rid sub.author ingsPop.2 with
  | .error e => .error e
  | .ok db1 =>
    (create_ingredients (create_tags db1 tags_data rid) rid
        ingredients_data).mapError WriteError.validation

/-- Outcome of a recipe write request. -/
inductive WriteResult where
  | success (rid : Nat)
  | failed (e : WriteError)
deriving DecidableEq, Repr

/-- The POST /recipes/ path (api/views.py, `RecipeViewSet.create`):
`serializer.is_valid(raise_exception=True)` then the `@transaction.atomic`
`create` — the atomic decorator means a failure anywhere inside the body
rolls every write of this request back, so the endpoint returns the original
`db` on every error. -/
def recipeCreateEndpoint (db : Db) (sub : Submission) (rid : Nat) :
    Db × WriteResult :=
  match validate db sub none with
  | .error e => (db, .failed (.validation e))
  | .ok _ =>
    match createBody db sub rid with
    | .ok db2 => (db2, .success rid)
    | .error e => (db, .failed e)

/-- Instance attributes assignable on a `Recipe`: its concrete fields.
Assigning the reverse-relation attribute `recipe_ingredients` raises
TypeError (direct assignment to the reverse side of a related set is
prohibited). -/
def recipeSettableAttrs : List String :=
  ["id", "author", "name", "image", "text", "cooking_time", "pub_date"]

/-- Effect of `setattr(recipe, attr, value)` for a scalar model field on the
recipe's stored row. -/
def setScalar (r : RecipeRow) (k : String) (v : PyVal) : RecipeRow :=
  if k == "name" then
    match v with
    | .str s => { r with name := s }
    | _ => r
  else if k == "cooking_time" then
    match v with
    | .int i => { r with cooking_time := i }
    | _ => r
  else r

/-- The `for attr, value in validated_data.items(): setattr(recipe, attr,
value)` loop of `RecipeSerializer.update` (api/serializers.py:327-328),
over the dict entries in order: a reverse-relation key raises TypeError,
scalar field keys update the row. -/
def setattrLoop (db : Db) (rid : Nat) :
    List (String × PyVal) → Except WriteError Db
  | [] => .ok db
  | (k, v) :: rest =>
    if ¬ recipeSettableAttrs.contains k then
      .error (.typeErrorReverseAssignment k)
    else
      setattrLoop
        { db with recipes := db.recipes.map (fun r =>
            if r.id == rid then setScalar r k v else r) }
        rid rest

/-- Body of `RecipeSerializer.update` (api/serializers.py:321-339), run
under `@transaction.atomic`: pop `ingredients` — yielding the default `[]`,
the parsed items being keyed `recipe_ingredients` — pop `tags` (default
None; the embedding's empty list is equally falsy), run the `setattr` loop
over the remaining entries (whose first entry is the reverse-relation key
`recipe_ingredients`, raising TypeError before any scalar is set), save,
then — only for non-empty popped lists — replace the ingredient rows and
the tag associations. -/
def updateBody (db : Db) (rid : Nat) (sub : Submission) :
    Except WriteError Db :=
  let ingsPop := popKey (validatedData sub) "ingredients" (.items [])
  let tagsPop := popKey ingsPop.2 "tags" (.tags [])
  let ingredients := match ingsPop.1 with | .items l => l | _ => []
  let tags := match tagsPop.1 with | .tags l => l | _ => []
  match setattrLoop db rid tagsPop.2 with
  | .error e => .error e
  | .ok db0 =>
    match (if ingredients.isEmpty then .ok db0
      else (create_ingredients
          { db0 with recipeIngredients :=
              db0.recipeIngredients.filter (fun r => ¬ r.recipe == rid) }
          rid ingredients).mapError WriteError.validation) with
    | .error e => .error e
    | .ok db1 =>
      .ok (if tags.isEmpty then db1
        else create_tags
          { db1 with recipeTags :=
              db1.recipeTags.filter (fun rt => ¬ rt.recipe == rid) }
          tags rid)

/-- The PATCH /recipes/id/ path (api/views.py, `RecipeViewSet.update`):
`get_object` (404 when the recipe id is unknown), validation with the `pk`
kwarg present, then the `@transaction.atomic` `update` — as for create, any
error leaves the store untouched. -/
def recipeUpdateEndpoint (db : Db) (rid : Nat) (sub : Submission) :
    Db × WriteResult :=
  if ¬ db.recipes.any (fun r => r.id == rid) then
    (db, .failed (.validation .recipeNotFound))
  else
    match validate db sub (some rid) with
    | .error e => (db, .failed (.validation e))
    | .ok _ =>
      match updateBody db rid sub with
      | .ok db2 => (db2, .success rid)
      | .error e => (db, .failed e)

/-- One entry of the `ingredients` dict built by
`RecipeViewSet.download_shopping_cart` (api/views.py:213-230): the key is the
ingredient name, the value records the summed amount and the measurement
unit of the first occurrence. -/
structure AggLine where
  name : String
  amount : Int
  unit : String
deriving DecidableEq, Repr

/-- The names present in the dict, in insertion order. -/
def dictNames (acc : List AggLine) : List String :=
  acc.map (fun l => l.name)

/-- One iteration of the aggregation loop (api/views.py:220-226): when the
name is already a key, add the amount to its entry; otherwise insert a new
entry with this amount and unit.  The dict is represented as its
insertion-ordered entry list with pairwise distinct keys. -/
def addIngredientLine (acc : List AggLine) (name : String) (amount : Int)
    (unit : String) : List AggLine :=
  if acc.any (fun l => l.name == name) then
    acc.map (fun l =>
      if l.name == name then { l with amount := l.amount + amount } else l)
  else acc ++ [⟨name, amount, unit⟩]

/-- Resolution of the `recipe_ingredient.ingredient` foreign key against the
catalog: the `(name, amount, measurement_unit)` triple read in the loop body
of `download_shopping_cart` (api/views.py:216-218). -/
def resolveRow (db : Db) (r : RecipeIngredientRow) :
    Option (String × Int × String) :=
  (db.ingredients.find? (fun i => i.id == r.ingredient)).map
    (fun i => (i.name, r.amount, i.measurement_unit))

/-- The triples enumerated by the two nested loops of
`download_shopping_cart` (api/views.py:214-218): every `RecipeIngredient`
row of every recipe in the user's shopping cart, resolved through the FK. -/
def cartRows (db : Db) (user : Nat) : List (String × Int × String) :=
  ((db.shoppingCart.filter (fun c => c.1 == user)).map
    (fun c => (db.recipeIngredients.filter (fun r => r.recipe == c.2)).filterMap
      (fun r => resolveRow db r))).flatten

/-- The loop body applied to one enumerated `(name, amount, unit)` triple. -/
def aggStep (acc : List AggLine) (x : String × Int × String) : List AggLine :=
  addIngredientLine acc x.1 x.2.1 x.2.2

/-- The `ingredient_list` value computed by
`RecipeViewSet.download_shopping_cart` (api/views.py:205-230): the
aggregation dict built over the user's cart, as its entry list. -/
def download_shopping_cart (db : Db) (user : Nat) : List AggLine :=
  (cartRows db user).foldl aggStep []

/-- Sum of the dict amounts recorded under the name. -/
def aggAmount (L : List AggLine) (n : String) : Int :=
  ((L.filter (fun l => l.name == n)).map (fun l => l.amount)).sum

/-- Sum of the amounts of the enumerated cart triples bearing the name. -/
def rowsAmount (xs : List (String × Int × String)) (n : String) : Int :=
  ((xs.filter (fun x => x.1 == n)).map (fun x => x.2.1)).sum

/-- Python exception raised by the embedded fragment of
services/pdf_generator.py. -/
inductive PyErr where
  | valueError
deriving DecidableEq, Repr

/-- A `generate_pdf` response: the plain-text empty-cart answer or the PDF
attachment with its body lines. -/
inductive PdfResponse where
  | emptyCartText
  | pdfAttachment (lines : List String)
deriving DecidableEq, Repr

/-- Arity of the tuples yielded by `dict.items()`: (key, value) pairs. -/
def dictItemsArity : Nat := 2

/-- Number of loop targets in the rendering loop header of `generate_pdf`
(services/pdf_generator.py:44): `for ingredient_name, details, total_amount
in ingredients_dict.items()`. -/
def renderTargets : Nat := 3

/-- The rendering loop of `generate_pdf` (services/pdf_generator.py:44-50).
Python unpacks each yielded tuple into the loop targets and raises
ValueError when the arities differ; the check happens per element, so an
empty dict runs zero iterations and raises nothing.  Here `dict.items()`
yields 2-tuples while the header has 3 targets, so the guard can never be
satisfied on a non-empty dict. -/
def renderPdfLines : List AggLine → Except PyErr (List String)
  | [] => .ok []
  | l :: rest =>
    if dictItemsArity = renderTargets then
      (renderPdfLines rest).map
        (fun ls => (l.name ++ ": " ++ toString l.amount ++ " " ++ l.unit) :: ls)
    else .error .valueError

/-- `generate_pdf` (services/pdf_generator.py:8-55): an empty
`shopping_cart_items` argument yields the plain-text empty-cart response;
otherwise the items are aggregated into `ingredients_dict` (same loop shape
as in the view) and rendered by the loop above.  (The view actually passes
its own aggregated `ingredient_list` — dicts without a `.recipe`
attribute — to this function; the embedding types the argument the way the
function body reads it, as cart rows.) -/
def generate_pdf (db : Db) (shopping_cart_items : List (Nat × Nat)) :
    Except PyErr PdfResponse :=
  if shopping_cart_items.isEmpty then .ok .emptyCartText
  else
    let d := shopping_cart_items.foldl
      (fun acc c =>
        ((db.recipeIngredients.filter (fun r => r.recipe == c.2)).filterMap
          (fun r => resolveRow db r)).foldl aggStep acc)
      []
    (renderPdfLines d).map .pdfAttachment

/-- Modelled from the spec: the `ShortRecipeURL` model (imported from
recipes.models by services/redict_url.py and api/views.py) is not under
src/; per spec §3 (recipe ↔ short code, one-to-one, unique persisted code)
it is a table of (recipe id, short code) rows. -/
structure ShortRecipeURL where
  recipe : Nat
  short_code : String
deriving DecidableEq, Repr

/-- Outcome of the short-link resolution endpoint. -/
inductive RedirectResult where
  | redirect (url : String)
  | http404
deriving DecidableEq, Repr

/-- The canonical recipe URL built by `redirect_to_original`
(services/redict_url.py:11-13): the urljoin of the http host root and
`recipes/` followed by the recipe id. -/
def canonicalRecipeUrl (domain : String) (rid : Nat) : String :=
  "http://" ++ domain ++ "/recipes/" ++ toString rid

/-- `redirect_to_original` (services/redict_url.py:9-15): `get_object_or_404`
on the short code, then a redirect to the canonical recipe URL. -/
def redirect_to_original (links : List ShortRecipeURL) (domain : String)
    (short_code : String) : RedirectResult :=
  match links.find? (fun l => l.short_code == short_code) with
  | none => .http404
  | some l => .redirect (canonicalRecipeUrl domain l.recipe)

/-- Responses of the favorite / shopping-cart member actions. -/
inductive ActionResponse where
  | authRequired
  | forbidden
  | recipe404
  | alreadyInList
  | added
  | removed
  | notInList
deriving DecidableEq, Repr

/-- The requesting principal as DRF sees it after authentication ran. -/
structure Request where
  authenticated : Bool
  user : Nat
deriving DecidableEq, Repr

/-- The HTTP verbs routed to the member actions. -/
inductive HttpMethod where
  | post
  | delete
deriving DecidableEq, Repr

/-- `BaseRecipeViewSet.handle_post` (api/views.py:240-252):
`get_object_or_404(Recipe, id=recipe_id)`, reject an existing (user, recipe)
membership row, else insert one. -/
def handle_post (db : Db) (table : List (Nat × Nat)) (user recipeId : Nat) :
    List (Nat × Nat) × ActionResponse :=
  if ¬ db.recipes.any (fun r => r.id == recipeId) then (table, .recipe404)
  else if table.any (fun p => p.1 == user && p.2 == recipeId) then
    (table, .alreadyInList)
  else (table ++ [(user, recipeId)], .added)

/-- `BaseRecipeViewSet.handle_delete` (api/views.py:254-264):
`get_object_or_404`, delete the membership row, 400 when none existed. -/
def handle_delete (db : Db) (table : List (Nat × Nat)) (user recipeId : Nat) :
    List (Nat × Nat) × ActionResponse :=
  if ¬ db.recipes.any (fun r => r.id == recipeId) then (table, .recipe404)
  else if table.any (fun p => p.1 == user && p.2 == recipeId) then
    (table.filter (fun p => ¬ (p.1 == user && p.2 == recipeId)), .removed)
  else (table, .notInList)

/-- DRF dispatch for `FavoritesViewSet` / `ShoppingCartViewSet`
(api/views.py:235-303): `permission_classes = [IsOwnerOrReadOnly,
IsAuthenticated]`; `APIView.dispatch` runs `check_permissions` — every class
must grant — before the handler, and a denial is rendered as 401 when the
request is unauthenticated, 403 otherwise.  `IsOwnerOrReadOnly` is imported
by api/views.py but its definition is not under src/, so the dispatch takes
its request-level check as an arbitrary predicate `ownerPerm`. -/
def memberActionDispatch (ownerPerm : Request → HttpMethod → Bool)
    (db : Db) (table : List (Nat × Nat)) (req : Request) (m : HttpMethod)
    (recipeId : Nat) : List (Nat × Nat) × ActionResponse :=
  if ¬ (ownerPerm req m && req.authenticated) then
    (table, if req.authenticated then .forbidden else .authRequired)
  else
    match m with
    | .post => handle_post db table req.user recipeId
    | .delete => handle_delete db table req.user recipeId

/-- Constraint-violation errors surfaced by the relational store. -/
inductive DbError where
  | checkViolation
  | uniqueViolation
deriving DecidableEq, Repr

/-- Database-level insert into `users.models.Subscription`
(users/models.py:66-97): the table carries
`UniqueConstraint (user, author)` and `CheckConstraint ~Q(user=F("author"))`,
so the store itself rejects a self-subscription row or a duplicate pair,
independently of application code. -/
def insertSubscription (subs : List (Nat × Nat)) (user author : Nat) :
    Except DbError (List (Nat × Nat)) :=
  if user = author then .error .checkViolation
  else if subs.any (fun s => s.1 == user && s.2 == author) then
    .error .uniqueViolation
  else .ok (subs ++ [(user, author)])

/-- Subscription-table states reachable through the constrained store:
empty, constraint-checked inserts, and row deletions. -/
inductive SubsReachable : List (Nat × Nat) → Prop where
  | empty : SubsReachable []
  | insert (s s' : List (Nat × Nat)) (u a : Nat) :
      SubsReachable s → insertSubscription s u a = .ok s' → SubsReachable s'
  | delete (s : List (Nat × Nat)) (p : Nat × Nat → Bool) :
      SubsReachable s → SubsReachable (s.filter p)

/-- Outcome of `SubscriptionViewSet.validate_subscription`. -/
inductive SubscribeCheck where
  | authFailed
  | selfSubscription
  | passes
deriving DecidableEq, Repr

/-- `SubscriptionViewSet.validate_subscription` (api/views.py:346-356): the
application-level check — authentication, then rejection of
`user.id == author.id` with a 400 response. -/
def validate_subscription (authenticated : Bool) (userId authorId : Nat) :
    SubscribeCheck :=
  if ¬ authenticated then .authFailed
  else if userId = authorId then .selfSubscription
  else .passes

/-- One call of `random.choices(CHARACTERS, k=URL_LENGTH)` joined to a string
(recipes/models.py:262-264).  `CHARACTERS` and `URL_LENGTH` come from
api/constants.py, which is not under src/; per the spec they are the
configured alphabet and the fixed code length, so they are parameters.
`randChoice k i` is the i-th draw of the k-th call: an index into the
alphabet, so every candidate is by construction a length-`URL_LENGTH` string
over `CHARACTERS`. -/
def candidateCode (CHARACTERS : List Char) (URL_LENGTH : Nat)
    (randChoice : Nat → Fin URL_LENGTH → Fin CHARACTERS.length)
    (k : Nat) : String :=
  String.mk (List.ofFn (fun i => CHARACTERS.get (randChoice k i)))

/-- The `while True` retry loop of `ShortLink.save`
(recipes/models.py:260-268): draw a candidate, exit as soon as no persisted
link bears it (`.filter(short_url=...).exists()`), otherwise re-roll.
`fuel` bounds the unrolling of the unboundedly retrying loop; `none` means
the loop has not exited within `fuel` draws. -/
def generateLoop (CHARACTERS : List Char) (URL_LENGTH : Nat)
    (randChoice : Nat → Fin URL_LENGTH → Fin CHARACTERS.length)
    (existing : List String) : Nat → Nat → Option String
  | 0, _ => none
  | fuel + 1, k =>
    let c := candidateCode CHARACTERS URL_LENGTH randChoice k
    if existing.contains c then
      generateLoop CHARACTERS URL_LENGTH randChoice existing fuel (k + 1)
    else some c

/-- Modelled from the spec: the GET /recipes/id/get-link/ handler
(`ShotLinkView.get`, api/views.py:441-461) creates a `ShortRecipeURL` for
the recipe only when none exists yet, then serializes the stored link; the
`ShortRecipeURL` model is not under src/, and per spec §4.5 its code is
produced lazily by the `ShortLink.save` retry loop embedded above. -/
def getLink (CHARACTERS : List Char) (URL_LENGTH : Nat)
    (randChoice : Nat → Fin URL_LENGTH → Fin CHARACTERS.length)
    (fuel : Nat) (links : List ShortRecipeURL) (rid : Nat) :
    Option (List ShortRecipeURL × String) :=
  match links.find? (fun l => l.recipe == rid) with
  | some l => some (links, l.short_code)
  | none =>
    (generateLoop CHARACTERS URL_LENGTH randChoice
        (links.map (fun l => l.short_code)) fuel 0).map
      (fun c => (links ++ [⟨rid, c⟩], c))

/-- Row of the `ShortLink` table (recipes/models.py:242-272). -/
structure ShortLinkRow where
  full_url : String
  short_url : String
  requests_count : Int
  created_date : Nat
  is_active : Bool
deriving DecidableEq, Repr

/-- The KeyErrors raised by `get_full_url`
(recipes/short_link_redirec.py:15-20). -/
inductive LinkError where
  | unknownUrl
  | inactiveUrl
deriving DecidableEq, Repr

/-- The UPDATE issued by `token.save()`: replace the row found through its
short code (unique in the table) by the mutated instance. -/
def updateRow : List ShortLinkRow → String → ShortLinkRow → List ShortLinkRow
  | [], _, _ => []
  | t :: ts, url, row' =>
    if t.short_url == url then row' :: ts else t :: updateRow ts url row'

/-- `get_full_url` (recipes/short_link_redirec.py:7-23):
`ShortLink.objects.get(short_url__exact=url)` — a miss raises; an inactive
link raises; only then `requests_count` is incremented and the row saved,
and the stored full URL is returned.  `token.save()` re-enters
`ShortLink.save`, whose code-regeneration branch fires only when
`short_url` is falsy; the matched token's `short_url` equals `url`, so for a
non-empty `url` the save is a plain row update — `regen` stands for the
retry loop (embedded as `generateLoop`) reached only in the `url = ""`
case. -/
def get_full_url (regen : List ShortLinkRow → String)
    (db : List ShortLinkRow) (url : String) :
    List ShortLinkRow × Except LinkError String :=
  match db.find? (fun t => t.short_url == url) with
  | none => (db, .error .unknownUrl)
  | some token =>
    if token.is_active = false then (db, .error .inactiveUrl)
    else if token.short_url = "" then
      (updateRow db url
          { token with
            requests_count := token.requests_count + 1
            short_url := regen db },
        .ok token.full_url)
    else
      (updateRow db url { token with requests_count := token.requests_count + 1 },
        .ok token.full_url)

/-- Concrete store for the witnesses: a two-entry catalog, one tag. -/
def c1Db : Db :=
  { ingredients := [⟨1, "salt", "g"⟩, ⟨2, "pepper", "g"⟩]
    tags := [7]
    recipes := []
    recipeIngredients := []
    recipeTags := []
    shoppingCart := []
    favorites := [] }

/-- A well-formed submission: two distinct ingredients, one tag. -/
def c1Sub : Submission := ⟨true, 3, "soup", 10, [⟨1, 5⟩, ⟨2, 3⟩], [7]⟩

/-- A submission repeating ingredient id 1. -/
def c1SubDup : Submission := ⟨true, 3, "soup", 10, [⟨1, 5⟩, ⟨1, 3⟩], [7]⟩

/-- Concrete store for the C2 witness: recipe 50 already has other
associations (pepper, tag 8) that the update must fully replace. -/
def c2Db : Db :=
  { ingredients := [⟨1, "salt", "g"⟩, ⟨2, "pepper", "g"⟩]
    tags := [7, 8]
    recipes := [⟨50, 3, "old", 5⟩]
    recipeIngredients := [⟨50, 2, 9⟩]
    recipeTags := [⟨50, 8⟩]
    shoppingCart := []
    favorites := [] }

/-- The C2 witness submission: salt only, tag 7 only. -/
def c2Sub : Submission := ⟨true, 3, "new", 10, [⟨1, 4⟩], [7]⟩

/-- Concrete store for the C3 witness: two cart recipes both containing
salt (amounts 5 and 3), per the spec example. -/
def c3Db : Db :=
  { ingredients := [⟨1, "salt", "g"⟩]
    tags := []
    recipes := [⟨10, 2, "a", 5⟩, ⟨11, 2, "b", 5⟩]
    recipeIngredients := [⟨10, 1, 5⟩, ⟨11, 1, 3⟩]
    recipeTags := []
    shoppingCart := [(1, 10), (1, 11)]
    favorites := [] }

/-- Alphabet for the C9 witness. -/
def c9Chars : List Char := ['a', 'b']

/-- Draw function for the C9 witness: always the first alphabet letter. -/
def c9Rand : Nat → Fin 2 → Fin c9Chars.length := fun _ _ => ⟨0, by decide⟩

/-- Short-link table for the C10 witness: one active and one inactive row. -/
def c10Db : List ShortLinkRow :=
  [⟨"http://h/recipes/1", "ab", 0, 0, true⟩,
    ⟨"http://h/recipes/2", "cd", 3, 1, false⟩]

/- ===== Theorems ===== -/

/-- Soundness of the per-ingredient validation loop: success means the
submitted ids avoid `seen`, are pairwise distinct, reference the catalog,
and carry positive amounts. -/
theorem checkIngredientItems_ok (db : Db) :
    ∀ (items : List IngredientItem) (seen : List Nat),
      checkIngredientItems db seen items = .ok () →
      (items.map (fun i => i.id)).Nodup
      ∧ ∀ i ∈ items, i.id ∉ seen ∧ ingredientExists db i.id = true ∧ 0 < i.amount := by
  intro items
  induction items with
  | nil =>
    intro seen _
    exact ⟨List.nodup_nil, by intro i hi; cases hi⟩
  | cons item rest ih =>
    intro seen h
    rw [checkIngredientItems] at h
    split at h
    · exact absurd h (by simp)
    split at h
    · exact absurd h (by simp)
    split at h
    · exact absurd h (by simp)
    rename_i h1 h2 h3
    obtain ⟨hnd, hrest⟩ := ih _ h
    constructor
    · rw [List.map_cons, List.nodup_cons]
      refine ⟨fun hmem => ?_, hnd⟩
      obtain ⟨i, hi, hid⟩ := List.mem_map.mp hmem
      exact (hrest i hi).1 (by rw [hid]; exact List.mem_cons_self _ _)
    · intro i hi
      rcases List.mem_cons.mp hi with rfl | hi2
      · exact ⟨h1, not_not.mp h2, not_le.mp h3⟩
      · obtain ⟨ha, hb, hc⟩ := hrest i hi2
        exact ⟨fun hs => ha (List.mem_cons_of_mem _ hs), hb, hc⟩

/-- Success of `check_ingredients_and_tags` yields the tag-count equation and
success of the per-ingredient loop. -/
theorem check_ok {db : Db} {ings : List IngredientItem} {tags : List Nat}
    (h : check_ingredients_and_tags db ings tags = .ok ()) :
    ings.isEmpty = false ∧ tags.isEmpty = false
    ∧ (db.tags.filter (fun t => tags.contains t)).length = tags.length
    ∧ checkIngredientItems db [] ings = .ok () := by
  rw [check_ingredients_and_tags] at h
  by_cases h1 : ings.isEmpty
  · rw [if_pos h1] at h; simp at h
  rw [if_neg h1] at h
  by_cases h2 : tags.isEmpty
  · rw [if_pos h2] at h; simp at h
  rw [if_neg h2] at h
  by_cases h3 : (db.tags.filter (fun t => tags.contains t)).length ≠ tags.length
  · rw [if_pos h3] at h; simp at h
  · exact ⟨Bool.of_not_eq_true h1, Bool.of_not_eq_true h2,
      not_ne_iff.mp h3, by rwa [if_neg h3] at h⟩

/-- Success of `validate` yields success of `check_ingredients_and_tags`. -/
theorem validate_ok {db : Db} {sub : Submission} {pk : Option Nat}
    (h : validate db sub pk = .ok ()) :
    check_ingredients_and_tags db sub.ingredients sub.tags = .ok () := by
  rw [validate] at h
  by_cases h1 : ¬ sub.authenticated
  · rw [if_pos h1] at h; simp at h
  rw [if_neg h1] at h
  cases hc : check_ingredients_and_tags db sub.ingredients sub.tags with
  | error e => rw [hc] at h; simp at h
  | ok u => cases u; rfl

/-- Claim C1 (code bug): the serializer keys the parsed ingredient items by
the field's source `recipe_ingredients`, but `create` pops `ingredients`
(getting the default `[]`) and hands the leftover entry to
`Recipe.objects.create`, which raises TypeError — so the atomic body fails
on EVERY submission, no create request is ever accepted, no
`RecipeIngredient` row is ever persisted, and the claim's accepted-request
property has no instances in the program.  The duplicate-rejection half of
the claim does hold: a repeated ingredient id is rejected by `validate`
(before the crash) with a validation error, creating nothing. -/
theorem c1_source_keyed_items_break_create :
    (∀ (db : Db) (sub : Submission) (rid : Nat),
      createBody db sub rid
        = .error (.typeErrorUnexpectedKwarg "recipe_ingredients"))
    ∧ (∀ (db : Db) (sub : Submission) (rid : Nat),
      validate db sub none = .ok () →
      recipeCreateEndpoint db sub rid
        = (db, .failed (.typeErrorUnexpectedKwarg "recipe_ingredients")))
    ∧ ∀ (db : Db) (sub : Submission) (rid : Nat),
      ¬ (sub.ingredients.map (fun i => i.id)).Nodup →
      ∃ e, validate db sub none = .error e
        ∧ recipeCreateEndpoint db sub rid = (db, .failed (.validation e)) := by
  refine ⟨?_, ?_, ?_⟩
  · intro db sub rid
    rfl
  · intro db sub rid hv
    have hcb : createBody db sub rid
        = .error (.typeErrorUnexpectedKwarg "recipe_ingredients") := rfl
    rw [recipeCreateEndpoint, hv, hcb]
  · intro db sub rid hdup
    cases hv : validate db sub none with
    | error e =>
      exact ⟨e, rfl, by rw [recipeCreateEndpoint, hv]⟩
    | ok u =>
      cases u
      exact absurd (checkIngredientItems_ok db sub.ingredients []
        (check_ok (validate_ok hv)).2.2.2).1 hdup

/-- Witness for C1: the fully valid submission is crashed by the TypeError
with the store unchanged, and the duplicate submission is rejected by
validation. -/
theorem c1_witness :
    recipeCreateEndpoint c1Db c1Sub 100
      = (c1Db, .failed (.typeErrorUnexpectedKwarg "recipe_ingredients"))
    ∧ ∃ e, validate c1Db c1SubDup none = .error e
        ∧ recipeCreateEndpoint c1Db c1SubDup 100
            = (c1Db, .failed (.validation e)) :=
  ⟨c1_source_keyed_items_break_create.2.1 c1Db c1Sub 100 rfl,
    c1_source_keyed_items_break_create.2.2 c1Db c1SubDup 100 (by decide)⟩

/-- Claim C2 (code bug): in `update` the pop of `ingredients` also yields
`[]` (the parsed items sit under `recipe_ingredients`), and the `setattr`
loop then hits the leftover reverse-relation key `recipe_ingredients` as
its first remaining entry and raises TypeError — so every update request
fails, the store (including every prior association) is returned
unchanged, and the full-replacement property never happens. -/
theorem c2_source_keyed_items_break_update :
    (∀ (db : Db) (rid : Nat) (sub : Submission),
      updateBody db rid sub
        = .error (.typeErrorReverseAssignment "recipe_ingredients"))
    ∧ (∀ (db : Db) (rid : Nat) (sub : Submission),
      ∃ e, recipeUpdateEndpoint db rid sub = (db, .failed e))
    ∧ recipeUpdateEndpoint c2Db 50 c2Sub
        = (c2Db, .failed (.typeErrorReverseAssignment "recipe_ingredients"))
    ∧ (recipeUpdateEndpoint c2Db 50 c2Sub).1.recipeIngredients
        = c2Db.recipeIngredients
    ∧ (recipeUpdateEndpoint c2Db 50 c2Sub).1.recipeTags = c2Db.recipeTags := by
  refine ⟨?_, ?_, rfl, rfl, rfl⟩
  · intro db rid sub
    rfl
  · intro db rid sub
    by_cases h0 : ¬ db.recipes.any (fun r => r.id == rid)
    · exact ⟨.validation .recipeNotFound,
        by rw [recipeUpdateEndpoint, if_pos h0]⟩
    · cases hv : validate db sub (some rid) with
      | error e =>
        exact ⟨.validation e, by rw [recipeUpdateEndpoint, if_neg h0, hv]⟩
      | ok u =>
        cases u
        refine ⟨.typeErrorReverseAssignment "recipe_ingredients", ?_⟩
        have hub : updateBody db rid sub
            = .error (.typeErrorReverseAssignment "recipe_ingredients") := rfl
        rw [recipeUpdateEndpoint, if_neg h0, hv, hub]

/-- Claim C4: on any failing recipe-creation request — a validation error,
or the failure inside the atomic body after validation (in this program the
TypeError raised when the leftover `recipe_ingredients` entry reaches
`Recipe.objects.create`) — the `@transaction.atomic` write path returns the
store unchanged, so no Recipe row, no RecipeIngredient row and no tag
association of the request persists. -/
theorem c4_failed_create_rolls_back_everything :
    ∀ (db : Db) (sub : Submission) (rid : Nat) (e : WriteError),
      (recipeCreateEndpoint db sub rid).2 = .failed e →
      (recipeCreateEndpoint db sub rid).1 = db
      ∧ ((∀ r ∈ db.recipes, r.id ≠ rid) →
          ∀ r ∈ (recipeCreateEndpoint db sub rid).1.recipes, r.id ≠ rid)
      ∧ ((∀ r ∈ db.recipeIngredients, r.recipe ≠ rid) →
          ∀ r ∈ (recipeCreateEndpoint db sub rid).1.recipeIngredients,
            r.recipe ≠ rid)
      ∧ ((∀ r ∈ db.recipeTags, r.recipe ≠ rid) →
          ∀ r ∈ (recipeCreateEndpoint db sub rid).1.recipeTags,
            r.recipe ≠ rid) := by
  intro db sub rid e h
  have hdb : (recipeCreateEndpoint db sub rid).1 = db := by
    rw [recipeCreateEndpoint] at h ⊢
    cases hv : validate db sub none with
    | error e2 => rfl
    | ok u =>
      cases u
      cases hc : createBody db sub rid with
      | ok db2 => rw [hc, hv] at h; simp at h
      | error e2 => rfl
  exact ⟨hdb, fun hf => by rw [hdb]; exact hf,
    fun hf => by rw [hdb]; exact hf, fun hf => by rw [hdb]; exact hf⟩

/-- Witness for C4: the valid submission fails inside the atomic body (the
TypeError, after validation passed) and the store comes back unchanged. -/
theorem c4_witness :
    (recipeCreateEndpoint c1Db c1Sub 100).1 = c1Db
    ∧ ((∀ r ∈ c1Db.recipes, r.id ≠ 100) →
        ∀ r ∈ (recipeCreateEndpoint c1Db c1Sub 100).1.recipes, r.id ≠ 100)
    ∧ ((∀ r ∈ c1Db.recipeIngredients, r.recipe ≠ 100) →
        ∀ r ∈ (recipeCreateEndpoint c1Db c1Sub 100).1.recipeIngredients,
          r.recipe ≠ 100)
    ∧ ((∀ r ∈ c1Db.recipeTags, r.recipe ≠ 100) →
        ∀ r ∈ (recipeCreateEndpoint c1Db c1Sub 100).1.recipeTags,
          r.recipe ≠ 100) :=
  c4_failed_create_rolls_back_everything c1Db c1Sub 100
    (.typeErrorUnexpectedKwarg "recipe_ingredients") (by decide)

/-- `aggAmount` over a cons. -/
theorem aggAmount_cons (l : AggLine) (L : List AggLine) (n : String) :
    aggAmount (l :: L) n
      = (if l.name == n then l.amount else 0) + aggAmount L n := by
  rw [aggAmount, List.filter_cons]
  by_cases hl : (l.name == n) = true
  · rw [if_pos hl, if_pos hl]
    simp [aggAmount]
  · rw [if_neg hl, if_neg hl]
    simp [aggAmount]

/-- `aggAmount` over an append. -/
theorem aggAmount_append (L1 L2 : List AggLine) (n : String) :
    aggAmount (L1 ++ L2) n = aggAmount L1 n + aggAmount L2 n := by
  rw [aggAmount, aggAmount, aggAmount, List.filter_append, List.map_append,
    List.sum_append]

/-- A name absent from the dict sums to zero. -/
theorem aggAmount_eq_zero_of_not_mem {L : List AggLine} {n : String}
    (h : n ∉ dictNames L) : aggAmount L n = 0 := by
  rw [aggAmount]
  have he : L.filter (fun l => l.name == n) = [] := by
    apply List.filter_eq_nil_iff.mpr
    intro a ha hbeq
    exact h (List.mem_map.mpr ⟨a, ha, by simpa using hbeq⟩)
  rw [he]
  rfl

/-- `rowsAmount` over a cons. -/
theorem rowsAmount_cons (x : String × Int × String)
    (xs : List (String × Int × String)) (n : String) :
    rowsAmount (x :: xs) n
      = (if x.1 == n then x.2.1 else 0) + rowsAmount xs n := by
  rw [rowsAmount, List.filter_cons]
  by_cases hl : (x.1 == n) = true
  · rw [if_pos hl, if_pos hl]
    simp [rowsAmount]
  · rw [if_neg hl, if_neg hl]
    simp [rowsAmount]

/-- The dict-membership test of the loop agrees with key membership. -/
theorem mem_dictNames_iff_any (acc : List AggLine) (n : String) :
    acc.any (fun l => l.name == n) = true ↔ n ∈ dictNames acc := by
  rw [List.any_eq_true]
  constructor
  · rintro ⟨l, hl, he⟩
    exact List.mem_map.mpr ⟨l, hl, by simpa using he⟩
  · intro hm
    obtain ⟨l, hl, rfl⟩ := List.mem_map.mp hm
    exact ⟨l, hl, by simp⟩

/-- Keys after one loop iteration: unchanged when the name was present,
extended by the name otherwise. -/
theorem dictNames_add (acc : List AggLine) (n : String) (a : Int) (u : String) :
    dictNames (addIngredientLine acc n a u)
      = if n ∈ dictNames acc then dictNames acc else dictNames acc ++ [n] := by
  rw [addIngredientLine]
  by_cases hin : acc.any (fun l => l.name == n) = true
  · rw [if_pos hin, if_pos ((mem_dictNames_iff_any acc n).mp hin)]
    rw [dictNames, dictNames, List.map_map]
    apply List.map_congr_left
    intro l _
    show (if (l.name == n) = true then
        ({ l with amount := l.amount + a } : AggLine) else l).name = l.name
    by_cases h : (l.name == n) = true
    · rw [if_pos h]
    · rw [if_neg h]
  · rw [if_neg hin, if_neg (fun hm => hin ((mem_dictNames_iff_any acc n).mpr hm))]
    rw [dictNames, dictNames, List.map_append]
    rfl

/-- One loop iteration keeps the dict keys pairwise distinct. -/
theorem dictNames_add_nodup (acc : List AggLine) (n : String) (a : Int)
    (u : String) (h : (dictNames acc).Nodup) :
    (dictNames (addIngredientLine acc n a u)).Nodup := by
  rw [dictNames_add]
  by_cases hin : n ∈ dictNames acc
  · rw [if_pos hin]
    exact h
  · rw [if_neg hin]
    have hcons : (n :: dictNames acc).Nodup := List.nodup_cons.mpr ⟨hin, h⟩
    exact (List.perm_append_singleton n (dictNames acc)).nodup_iff.mpr hcons

/-- Cons normal form of the dict-key list. -/
theorem dictNames_cons (l : AggLine) (L : List AggLine) :
    dictNames (l :: L) = l.name :: dictNames L := by
  rw [dictNames, dictNames, List.map_cons]

/-- Bumping the (unique) entry of a name adds the amount to that name's sum
and leaves every other name's sum unchanged. -/
theorem aggAmount_bump (n : String) (a : Int) (m : String) :
    ∀ (acc : List AggLine), (dictNames acc).Nodup →
    aggAmount (acc.map (fun l =>
        if l.name == n then { l with amount := l.amount + a } else l)) m
      = aggAmount acc m + (if m = n ∧ n ∈ dictNames acc then a else 0) := by
  intro acc
  induction acc with
  | nil =>
    intro _
    simp [aggAmount, dictNames]
  | cons l acc ih =>
    intro hnd
    rw [dictNames_cons] at hnd
    have hnd2 := List.nodup_cons.mp hnd
    rw [List.map_cons, aggAmount_cons, aggAmount_cons, ih hnd2.2]
    by_cases hln : (l.name == n) = true
    · have hlnn : l.name = n := by simpa using hln
      have hnacc : n ∉ dictNames acc := hlnn ▸ hnd2.1
      rw [if_pos hln]
      by_cases hmn : m = n
      · have h2 : (({ l with amount := l.amount + a } : AggLine).name == m) = true := by
          simp [hlnn, hmn]
        have h3 : (l.name == m) = true := by simp [hlnn, hmn]
        have h5 : m = n ∧ n ∈ dictNames (l :: acc) :=
          ⟨hmn, by rw [dictNames_cons, hlnn]; exact List.mem_cons_self _ _⟩
        rw [if_pos h2, if_pos h3,
          if_neg (show ¬(m = n ∧ n ∈ dictNames acc) from fun hc => hnacc hc.2),
          if_pos h5]
        show l.amount + a + (aggAmount acc m + 0)
            = l.amount + aggAmount acc m + a
        ring
      · have h2 : (({ l with amount := l.amount + a } : AggLine).name == m) = false := by
          simp only [hlnn]
          simp only [beq_eq_false_iff_ne]
          exact fun h => hmn h.symm
        have h3 : (l.name == m) = false := by
          rw [hlnn]
          simp only [beq_eq_false_iff_ne]
          exact fun h => hmn h.symm
        rw [if_neg (show ¬(({ l with amount := l.amount + a } : AggLine).name == m) = true
            by simp [h2]),
          if_neg (show ¬(l.name == m) = true by simp [h3]),
          if_neg (show ¬(m = n ∧ n ∈ dictNames acc) from fun hc => hmn hc.1),
          if_neg (show ¬(m = n ∧ n ∈ dictNames (l :: acc)) from fun hc => hmn hc.1)]
        ring
    · have hlnn : l.name ≠ n := by simpa using hln
      rw [if_neg hln]
      have hnames : (m = n ∧ n ∈ dictNames (l :: acc)) ↔ (m = n ∧ n ∈ dictNames acc) := by
        rw [dictNames_cons]
        constructor
        · rintro ⟨h1, h2⟩
          rcases List.mem_cons.mp h2 with he | hmem
          · exact absurd he.symm hlnn
          · exact ⟨h1, hmem⟩
        · rintro ⟨h1, h2⟩
          exact ⟨h1, List.mem_cons_of_mem _ h2⟩
      rw [if_congr hnames rfl rfl]
      ring

/-- Effect of one loop iteration on the per-name sums. -/
theorem aggAmount_add (acc : List AggLine) (n : String) (a : Int) (u : String)
    (hnd : (dictNames acc).Nodup) (m : String) :
    aggAmount (addIngredientLine acc n a u) m
      = aggAmount acc m + (if m = n then a else 0) := by
  rw [addIngredientLine]
  by_cases hin : (acc.any (fun l => l.name == n)) = true
  · rw [if_pos hin, aggAmount_bump n a m acc hnd]
    have : (m = n ∧ n ∈ dictNames acc) ↔ (m = n) :=
      ⟨fun h => h.1, fun h => ⟨h, (mem_dictNames_iff_any acc n).mp hin⟩⟩
    rw [if_congr this rfl rfl]
  · rw [if_neg hin, aggAmount_append]
    congr 1
    rw [aggAmount_cons]
    by_cases h : m = n
    · rw [if_pos (by simpa using h.symm), if_pos h]
      simp [aggAmount]
    · rw [if_neg (by simpa using fun he => h he.symm), if_neg h]
      simp [aggAmount]

/-- One loop iteration preserves any property holding of the current dict
entries and of the inserted (name, unit). -/
theorem add_preserves_pred (acc : List AggLine) (n : String) (a : Int)
    (u : String) (P : String → String → Prop)
    (hacc : ∀ l ∈ acc, P l.name l.unit) (hx : P n u) :
    ∀ l ∈ addIngredientLine acc n a u, P l.name l.unit := by
  intro l hl
  rw [addIngredientLine] at hl
  by_cases hin : (acc.any (fun l => l.name == n)) = true
  · rw [if_pos hin] at hl
    obtain ⟨l0, hl0, rfl⟩ := List.mem_map.mp hl
    by_cases h : (l0.name == n) = true
    · rw [if_pos h]
      exact hacc l0 hl0
    · rw [if_neg h]
      exact hacc l0 hl0
  · rw [if_neg hin] at hl
    rcases List.mem_append.mp hl with h | h
    · exact hacc l h
    · rcases List.mem_singleton.mp h with rfl
      exact hx

/-- With pairwise distinct keys, the entry of a name carries that name's
whole sum. -/
theorem aggAmount_of_mem :
    ∀ (L : List AggLine), (dictNames L).Nodup →
      ∀ l ∈ L, aggAmount L l.name = l.amount := by
  intro L
  induction L with
  | nil =>
    intro _ l hl
    cases hl
  | cons l0 L ih =>
    intro hnd l hl
    rw [dictNames_cons] at hnd
    have hnd2 := List.nodup_cons.mp hnd
    rw [aggAmount_cons]
    rcases List.mem_cons.mp hl with rfl | hl2
    · rw [if_pos (by simp), aggAmount_eq_zero_of_not_mem hnd2.1]
      ring
    · have hne : l0.name ≠ l.name := by
        intro he
        exact hnd2.1 (he ▸ List.mem_map.mpr ⟨l, hl2, rfl⟩)
      rw [if_neg (by simpa using hne), ih hnd2.2 l hl2]
      ring

/-- Invariant of the whole aggregation loop, for any starting dict with
pairwise distinct keys: keys stay distinct, the final keys are the starting
keys plus the enumerated names, each name's sum grows by exactly the summed
amounts of its triples, and any property of (key, unit) pairs holding of the
start and of the input triples holds of the result. -/
theorem agg_fold_invariant :
    ∀ (xs : List (String × Int × String)) (acc : List AggLine),
      (dictNames acc).Nodup →
      (dictNames (xs.foldl aggStep acc)).Nodup
      ∧ (∀ n, n ∈ dictNames (xs.foldl aggStep acc)
          ↔ n ∈ dictNames acc ∨ n ∈ xs.map (fun x => x.1))
      ∧ (∀ n, aggAmount (xs.foldl aggStep acc) n
          = aggAmount acc n + rowsAmount xs n)
      ∧ ∀ (P : String → String → Prop),
          (∀ l ∈ acc, P l.name l.unit) → (∀ x ∈ xs, P x.1 x.2.2) →
          ∀ l ∈ xs.foldl aggStep acc, P l.name l.unit := by
  intro xs
  induction xs with
  | nil =>
    intro acc hnd
    refine ⟨hnd, fun n => by simp, fun n => by simp [rowsAmount], ?_⟩
    intro P hacc _ l hl
    exact hacc l hl
  | cons x xs ih =>
    intro acc hnd
    have hnd' : (dictNames (aggStep acc x)).Nodup :=
      dictNames_add_nodup acc x.1 x.2.1 x.2.2 hnd
    obtain ⟨ih1, ih2, ih3, ih4⟩ := ih (aggStep acc x) hnd'
    rw [List.foldl_cons]
    refine ⟨ih1, ?_, ?_, ?_⟩
    · intro n
      rw [ih2 n]
      rw [show aggStep acc x = addIngredientLine acc x.1 x.2.1 x.2.2 from rfl,
        dictNames_add]
      by_cases hin : x.1 ∈ dictNames acc
      · rw [if_pos hin]
        simp only [List.map_cons, List.mem_cons]
        constructor
        · rintro (h | h)
          · exact Or.inl h
          · exact Or.inr (Or.inr h)
        · rintro (h | h | h)
          · exact Or.inl h
          · exact Or.inl (h ▸ hin)
          · exact Or.inr h
      · rw [if_neg hin]
        simp only [List.mem_append, List.mem_cons, List.map_cons,
          List.not_mem_nil, or_false]
        tauto
    · intro n
      rw [ih3 n, rowsAmount_cons,
        show aggStep acc x = addIngredientLine acc x.1 x.2.1 x.2.2 from rfl,
        aggAmount_add acc x.1 x.2.1 x.2.2 hnd n]
      by_cases h : n = x.1
      · rw [if_pos h, if_pos (by simpa using h.symm)]
        ring
      · rw [if_neg h, if_neg (by simpa using fun he => h he.symm)]
        ring
    · intro P hacc hxs
      exact ih4 P
        (add_preserves_pred acc x.1 x.2.1 x.2.2 P hacc (hxs x (List.mem_cons_self _ _)))
        (fun y hy => hxs y (List.mem_cons_of_mem _ hy))

/-- Every triple enumerated from the cart resolves to a catalog entry whose
name and unit it carries. -/
theorem mem_cartRows_inv {db : Db} {user : Nat} {x : String × Int × String}
    (hx : x ∈ cartRows db user) :
    ∃ i ∈ db.ingredients, i.name = x.1 ∧ i.measurement_unit = x.2.2 := by
  rw [cartRows] at hx
  obtain ⟨block, hblock, hxin⟩ := List.mem_flatten.mp hx
  obtain ⟨c, _, rfl⟩ := List.mem_map.mp hblock
  obtain ⟨r, _, hres⟩ := List.mem_filterMap.mp hxin
  rw [resolveRow] at hres
  cases hf : db.ingredients.find? (fun i => i.id == r.ingredient) with
  | none => rw [hf] at hres; cases hres
  | some i =>
    rw [hf] at hres
    have hi := List.mem_of_find?_eq_some hf
    cases hres
    exact ⟨i, hi, rfl, rfl⟩

/-- Claim C3: for every user and store (with referentially intact rows, a
primary-key-unique and name-unique catalog, as the models enforce), the
shopping-list aggregation enumerates every `RecipeIngredient` row of every
cart recipe, its output has one line per occurring ingredient name, each
line's amount is the exact integer sum of the amounts of all enumerated
rows of that name, and all those rows carry the line's measurement unit —
so the grouping is by the (name, unit) pair and two cart recipes sharing an
ingredient yield a single summed line. -/
theorem c3_shopping_list_aggregation_correct :
    ∀ (db : Db) (user : Nat),
      (∀ i1 ∈ db.ingredients, ∀ i2 ∈ db.ingredients, i1.name = i2.name → i1 = i2) →
      (db.ingredients.map (fun i => i.id)).Nodup →
      ((∀ c ∈ db.shoppingCart, c.1 = user →
          ∀ r ∈ db.recipeIngredients, r.recipe = c.2 →
          ∀ i ∈ db.ingredients, i.id = r.ingredient →
            (i.name, r.amount, i.measurement_unit) ∈ cartRows db user)
      ∧ (dictNames (download_shopping_cart db user)).Nodup
      ∧ (∀ n, n ∈ dictNames (download_shopping_cart db user)
            ↔ n ∈ (cartRows db user).map (fun x => x.1))
      ∧ ∀ l ∈ download_shopping_cart db user,
          l.amount = rowsAmount (cartRows db user) l.name
          ∧ ∀ x ∈ cartRows db user, x.1 = l.name → x.2.2 = l.unit) := by
  intro db user huniq hids
  obtain ⟨hnd, hnames, hamount, hpred⟩ :=
    agg_fold_invariant (cartRows db user) [] (by simp [dictNames])
  rw [show (cartRows db user).foldl aggStep [] = download_shopping_cart db user
    from rfl] at hnd hnames hamount hpred
  refine ⟨?_, hnd, ?_, ?_⟩
  · intro c hc hcu r hr hrc i hi hid
    rw [cartRows]
    apply List.mem_flatten.mpr
    refine ⟨_, List.mem_map.mpr ⟨c, List.mem_filter.mpr ⟨hc, by simpa using hcu⟩, rfl⟩, ?_⟩
    apply List.mem_filterMap.mpr
    refine ⟨r, List.mem_filter.mpr ⟨hr, by simpa using hrc⟩, ?_⟩
    rw [resolveRow]
    cases hf : db.ingredients.find? (fun j => j.id == r.ingredient) with
    | none =>
      exfalso
      have := List.find?_eq_none.mp hf i hi
      simp [hid] at this
    | some j =>
      have hj := List.mem_of_find?_eq_some hf
      have hjid : j.id = r.ingredient := by
        have := List.find?_some hf
        simpa using this
      have hji : j = i :=
        List.inj_on_of_nodup_map hids hj hi (by rw [hjid, hid])
      rw [hji]
      rfl
  · intro n
    rw [hnames n]
    simp [dictNames]
  · intro l hl
    constructor
    · have h1 := hamount l.name
      rw [aggAmount_of_mem _ hnd l hl] at h1
      rw [h1]
      simp [aggAmount]
    · intro x hx hxname
      refine hpred (fun n u => ∀ y ∈ cartRows db user, y.1 = n → y.2.2 = u)
        ?_ ?_ l hl x hx hxname
      · intro l0 hl0
        cases hl0
      · intro y hy z hz hzy
        obtain ⟨iy, hiy, hy1, hy2⟩ := mem_cartRows_inv hy
        obtain ⟨iz, hiz, hz1, hz2⟩ := mem_cartRows_inv hz
        have hzyeq : iz = iy := huniq iz hiz iy hiy (by rw [hz1, hy1, hzy])
        rw [← hz2, ← hy2, hzyeq]

/-- Witness for C3 at the concrete store: salt 5 + salt 3 aggregates to the
single line (salt, 8, g). -/
theorem c3_witness :
    download_shopping_cart c3Db 1 = [⟨"salt", 8, "g"⟩]
    ∧ ((∀ c ∈ c3Db.shoppingCart, c.1 = 1 →
          ∀ r ∈ c3Db.recipeIngredients, r.recipe = c.2 →
          ∀ i ∈ c3Db.ingredients, i.id = r.ingredient →
            (i.name, r.amount, i.measurement_unit) ∈ cartRows c3Db 1)
      ∧ (dictNames (download_shopping_cart c3Db 1)).Nodup
      ∧ (∀ n, n ∈ dictNames (download_shopping_cart c3Db 1)
            ↔ n ∈ (cartRows c3Db 1).map (fun x => x.1))
      ∧ ∀ l ∈ download_shopping_cart c3Db 1,
          l.amount = rowsAmount (cartRows c3Db 1) l.name
          ∧ ∀ x ∈ cartRows c3Db 1, x.1 = l.name → x.2.2 = l.unit) :=
  ⟨by decide,
    c3_shopping_list_aggregation_correct c3Db 1 (by decide) (by decide)⟩

/-- Claim C5 (code bug): the empty-cart half holds — `generate_pdf` on an
empty argument returns the explicit plain-text empty-cart response — but a
cart whose recipes contribute at least one ingredient never yields a PDF
attachment: the rendering loop header has three targets while
`ingredients_dict.items()` yields pairs, so Python raises ValueError on the
first entry (and in the deployed composition `download_shopping_cart` even
passes aggregated plain dicts to a `generate_pdf` reading `item.recipe`,
an AttributeError).  This theorem evaluates the embedding at the failing
input. -/
theorem c5_nonempty_cart_crashes_instead_of_pdf :
    generate_pdf c3Db [] = .ok .emptyCartText
    ∧ generate_pdf c3Db [(1, 10)] = .error .valueError := by
  constructor
  · rfl
  · rfl

/-- Claim C6: short-code resolution — an unknown code is answered by the 404
of `get_object_or_404`, and a persisted code (codes are unique in the
table) redirects to exactly the canonical URL of the associated recipe. -/
theorem c6_short_code_resolution :
    (∀ (links : List ShortRecipeURL) (domain code : String),
      (∀ l ∈ links, l.short_code ≠ code) →
      redirect_to_original links domain code = .http404)
    ∧ ∀ (links : List ShortRecipeURL) (domain code : String)
        (l : ShortRecipeURL),
      l ∈ links → l.short_code = code →
      (∀ l1 ∈ links, ∀ l2 ∈ links, l1.short_code = l2.short_code → l1 = l2) →
      redirect_to_original links domain code
        = .redirect (canonicalRecipeUrl domain l.recipe) := by
  constructor
  · intro links domain code h
    have hf : links.find? (fun l => l.short_code == code) = none :=
      List.find?_eq_none.mpr (fun x hx => by simpa using h x hx)
    rw [redirect_to_original, hf]
  · intro links domain code l hl hcode huniq
    cases hf : links.find? (fun l => l.short_code == code) with
    | none =>
      exfalso
      have := List.find?_eq_none.mp hf l hl
      simp [hcode] at this
    | some l2 =>
      have h2 := List.mem_of_find?_eq_some hf
      have h2c : l2.short_code = code := by simpa using List.find?_some hf
      have h2l : l2 = l := huniq l2 h2 l hl (by rw [h2c, hcode])
      rw [redirect_to_original, hf, h2l]

/-- Witness for C6: a one-row link table, one unknown and one known code. -/
theorem c6_witness :
    redirect_to_original [⟨42, "ab"⟩] "host" "zz" = .http404
    ∧ redirect_to_original [⟨42, "ab"⟩] "host" "ab"
        = .redirect (canonicalRecipeUrl "host" 42) :=
  ⟨c6_short_code_resolution.1 [⟨42, "ab"⟩] "host" "zz" (by decide),
    c6_short_code_resolution.2 [⟨42, "ab"⟩] "host" "ab" ⟨42, "ab"⟩
      (by decide) rfl (by decide)⟩

/-- Claim C7: an anonymous favorite / shopping-cart POST or DELETE is
answered with the authentication-required error by the permission layer
before the handler that looks the recipe up runs: for every store — in
particular one lacking the requested recipe id — the membership table comes
back unchanged and the response is the 401 (not a 404), whatever the
`IsOwnerOrReadOnly` request-level check returns. -/
theorem c7_anonymous_member_action_rejected_before_lookup :
    ∀ (ownerPerm : Request → HttpMethod → Bool) (db : Db)
      (table : List (Nat × Nat)) (req : Request) (m : HttpMethod)
      (recipeId : Nat),
      req.authenticated = false →
      memberActionDispatch ownerPerm db table req m recipeId
        = (table, .authRequired) := by
  intro ownerPerm db table req m recipeId hanon
  have hc : (ownerPerm req m && req.authenticated) = false := by
    rw [hanon, Bool.and_false]
  rw [memberActionDispatch.eq_def, if_pos (by simp [hc]),
    if_neg (by simp [hanon])]

/-- Witness for C7: an anonymous POST for a recipe id absent from the store
gets the 401, and nothing is written. -/
theorem c7_witness :
    memberActionDispatch (fun _ _ => true) c1Db [] ⟨false, 5⟩ .post 999
      = ([], .authRequired) :=
  c7_anonymous_member_action_rejected_before_lookup
    (fun _ _ => true) c1Db [] ⟨false, 5⟩ .post 999 rfl

/-- Claim C8: self-subscription always fails — at the store level through
the check constraint (`insertSubscription` rejects user = author in every
state), so no reachable subscription-table state contains a row whose
follower equals its author — and independently at the application level
(`validate_subscription` never passes for user = author). -/
theorem c8_no_self_subscription :
    (∀ (subs : List (Nat × Nat)) (u : Nat),
      insertSubscription subs u u = .error .checkViolation)
    ∧ (∀ subs, SubsReachable subs → ∀ p ∈ subs, p.1 ≠ p.2)
    ∧ ∀ (auth : Bool) (u : Nat), validate_subscription auth u u ≠ .passes := by
  refine ⟨?_, ?_, ?_⟩
  · intro subs u
    rw [insertSubscription, if_pos rfl]
  · intro subs hr
    induction hr with
    | empty =>
      intro p hp
      cases hp
    | insert s s' u a hs hins ih =>
      rw [insertSubscription] at hins
      by_cases hua : u = a
      · rw [if_pos hua] at hins
        simp at hins
      rw [if_neg hua] at hins
      by_cases hdup : (s.any fun p => p.1 == u && p.2 == a) = true
      · rw [if_pos hdup] at hins
        simp at hins
      rw [if_neg hdup] at hins
      simp only [Except.ok.injEq] at hins
      intro p hp
      rw [← hins] at hp
      rcases List.mem_append.mp hp with h | h
      · exact ih p h
      · rcases List.mem_singleton.mp h with rfl
        simpa using hua
    | delete s p hs ih =>
      intro q hq
      exact ih q (List.mem_filter.mp hq).1
  · intro auth u
    rw [validate_subscription]
    by_cases h : ¬ auth
    · rw [if_pos h]
      simp
    · rw [if_neg h, if_pos rfl]
      simp

/-- Witness for C8: a reachable one-row state, with a rejected self-insert
and a rejected application-level self-subscription. -/
theorem c8_witness :
    insertSubscription [(1, 2)] 3 3 = .error .checkViolation
    ∧ (∀ p ∈ [((1 : Nat), (2 : Nat))], p.1 ≠ p.2)
    ∧ validate_subscription true 4 4 ≠ .passes :=
  ⟨c8_no_self_subscription.1 [(1, 2)] 3,
    c8_no_self_subscription.2.1 [(1, 2)]
      (SubsReachable.insert [] [(1, 2)] 1 2 SubsReachable.empty rfl),
    c8_no_self_subscription.2.2 true 4⟩

/-- A successful exit of the retry loop yields some draw's candidate, and
one that no persisted link bears. -/
theorem generateLoop_some {CHARACTERS : List Char} {URL_LENGTH : Nat}
    {randChoice : Nat → Fin URL_LENGTH → Fin CHARACTERS.length}
    {existing : List String} :
    ∀ (fuel k : Nat) (c : String),
      generateLoop CHARACTERS URL_LENGTH randChoice existing fuel k = some c →
      c ∉ existing
      ∧ ∃ j, c = candidateCode CHARACTERS URL_LENGTH randChoice j := by
  intro fuel
  induction fuel with
  | zero =>
    intro k c h
    cases h
  | succ fuel ih =>
    intro k c h
    rw [generateLoop] at h
    by_cases hc : (existing.contains
        (candidateCode CHARACTERS URL_LENGTH randChoice k)) = true
    · rw [if_pos hc] at h
      exact ih (k + 1) c h
    · rw [if_neg hc] at h
      simp only [Option.some.injEq] at h
      subst h
      refine ⟨?_, k, rfl⟩
      intro hmem
      exact hc (List.elem_iff.mpr hmem)

/-- Every candidate has the configured length. -/
theorem candidateCode_length (CHARACTERS : List Char) (URL_LENGTH : Nat)
    (randChoice : Nat → Fin URL_LENGTH → Fin CHARACTERS.length) (k : Nat) :
    (candidateCode CHARACTERS URL_LENGTH randChoice k).length = URL_LENGTH := by
  show (List.ofFn (fun i => CHARACTERS.get (randChoice k i))).length = URL_LENGTH
  exact List.length_ofFn _

/-- Every candidate is drawn from the configured alphabet. -/
theorem candidateCode_chars (CHARACTERS : List Char) (URL_LENGTH : Nat)
    (randChoice : Nat → Fin URL_LENGTH → Fin CHARACTERS.length) (k : Nat) :
    ∀ ch ∈ (candidateCode CHARACTERS URL_LENGTH randChoice k).data,
      ch ∈ CHARACTERS := by
  intro ch hch
  have hch2 : ch ∈ List.ofFn (fun i => CHARACTERS.get (randChoice k i)) := hch
  obtain ⟨i, rfl⟩ := (List.mem_ofFn _ _).mp hch2
  show CHARACTERS.get (randChoice k i) ∈ CHARACTERS
  exact List.get_mem CHARACTERS (randChoice k i).1 (randChoice k i).2

/-- Claim C9: the first get-link request for a recipe without a code
persists exactly one new (recipe, code) row whose code comes from the
re-rolling loop — so it differs from every previously persisted code, has
the configured fixed length, and is drawn from the configured alphabet —
and every later get-link request for the recipe returns the same code with
the table unchanged, whatever randomness or retry bound the later call
uses. -/
theorem c9_short_code_created_once_and_idempotent :
    ∀ (CHARACTERS : List Char) (URL_LENGTH : Nat)
      (randChoice : Nat → Fin URL_LENGTH → Fin CHARACTERS.length)
      (fuel : Nat) (links : List ShortRecipeURL) (rid : Nat)
      (l' : List ShortRecipeURL) (c : String),
      ((∀ l ∈ links, l.recipe ≠ rid) →
        getLink CHARACTERS URL_LENGTH randChoice fuel links rid = some (l', c) →
        l' = links ++ [⟨rid, c⟩]
        ∧ (∀ l ∈ links, l.short_code ≠ c)
        ∧ c.length = URL_LENGTH
        ∧ ∀ ch ∈ c.data, ch ∈ CHARACTERS)
      ∧ (getLink CHARACTERS URL_LENGTH randChoice fuel links rid = some (l', c) →
        ∀ (randChoice2 : Nat → Fin URL_LENGTH → Fin CHARACTERS.length)
          (fuel2 : Nat),
          getLink CHARACTERS URL_LENGTH randChoice2 fuel2 l' rid
            = some (l', c)) := by
  intro CHARACTERS URL_LENGTH randChoice fuel links rid l' c
  constructor
  · intro hfresh h
    have hfnone : links.find? (fun l => l.recipe == rid) = none :=
      List.find?_eq_none.mpr (fun x hx => by simpa using hfresh x hx)
    rw [getLink, hfnone] at h
    cases hg : generateLoop CHARACTERS URL_LENGTH randChoice
        (links.map (fun l => l.short_code)) fuel 0 with
    | none => rw [hg] at h; cases h
    | some c0 =>
      rw [hg] at h
      simp only [Option.map_some', Option.some.injEq, Prod.mk.injEq] at h
      obtain ⟨hl, hcc⟩ := h
      rw [hcc] at hg hl
      obtain ⟨hnotin, j, hj⟩ := generateLoop_some fuel 0 c hg
      refine ⟨hl.symm, ?_, ?_, ?_⟩
      · intro l hlmem he
        exact hnotin (he ▸ List.mem_map.mpr ⟨l, hlmem, rfl⟩)
      · rw [hj]
        exact candidateCode_length CHARACTERS URL_LENGTH randChoice j
      · rw [hj]
        exact candidateCode_chars CHARACTERS URL_LENGTH randChoice j
  · intro h randChoice2 fuel2
    rw [getLink] at h
    cases hf : links.find? (fun l => l.recipe == rid) with
    | some l0 =>
      rw [hf] at h
      simp only [Option.some.injEq, Prod.mk.injEq] at h
      obtain ⟨hl, hcc⟩ := h
      subst hl
      subst hcc
      rw [getLink, hf]
    | none =>
      rw [hf] at h
      cases hg : generateLoop CHARACTERS URL_LENGTH randChoice
          (links.map (fun l => l.short_code)) fuel 0 with
      | none => rw [hg] at h; cases h
      | some c0 =>
        rw [hg] at h
        simp only [Option.map_some', Option.some.injEq, Prod.mk.injEq] at h
        obtain ⟨hl, hcc⟩ := h
        rw [hcc] at hl
        subst hl
        have hfind : ((links ++ [(⟨rid, c⟩ : ShortRecipeURL)]).find?
            (fun l => l.recipe == rid)) = some ⟨rid, c⟩ := by
          rw [List.find?_append, hf]
          simp
        rw [getLink, hfind]

/-- Witness for C9: an empty link table, alphabet ab, length 2; the first
request persists code aa for recipe 5 and later requests return it
unchanged. -/
theorem c9_witness :
    ([(⟨5, "aa"⟩ : ShortRecipeURL)] = [] ++ [⟨5, "aa"⟩]
      ∧ (∀ l ∈ ([] : List ShortRecipeURL), l.short_code ≠ "aa")
      ∧ ("aa" : String).length = 2
      ∧ ∀ ch ∈ ("aa" : String).data, ch ∈ c9Chars)
    ∧ ∀ (randChoice2 : Nat → Fin 2 → Fin c9Chars.length) (fuel2 : Nat),
        getLink c9Chars 2 randChoice2 fuel2 [⟨5, "aa"⟩] 5
          = some ([⟨5, "aa"⟩], "aa") :=
  ⟨(c9_short_code_created_once_and_idempotent c9Chars 2 c9Rand 1 [] 5
      [⟨5, "aa"⟩] "aa").1 (by decide) (by decide),
    (c9_short_code_created_once_and_idempotent c9Chars 2 c9Rand 1 [] 5
      [⟨5, "aa"⟩] "aa").2 (by decide)⟩

/-- The UPDATE of the found row replaces exactly it, given that no earlier
row bears the code. -/
theorem updateRow_append (pre post : List ShortLinkRow)
    (token row' : ShortLinkRow) (url : String)
    (hpre : ∀ t ∈ pre, (t.short_url == url) = false)
    (htok : (token.short_url == url) = true) :
    updateRow (pre ++ token :: post) url row' = pre ++ row' :: post := by
  induction pre with
  | nil =>
    rw [List.nil_append, updateRow, if_pos htok, List.nil_append]
  | cons t pre ih =>
    rw [List.cons_append, updateRow,
      if_neg (by simp [hpre t (List.mem_cons_self _ _)]),
      ih (fun t2 ht2 => hpre t2 (List.mem_cons_of_mem _ ht2)),
      List.cons_append]

/-- Claim C10: a successful short-link resolution increments exactly the
resolved row's `requests_count` by one — the row's other fields
(`full_url`, `short_url`, `is_active`, `created_date`) and every other row
are untouched — and returns the stored full URL; a failed resolution
(unknown or inactive code) leaves the table unchanged, the check-then-raise
order keeping the counter increment out of the failure paths.  The
looked-up code is taken non-empty, which keeps `token.save()` out of its
code-regeneration branch (persisted codes are non-empty fixed-length
strings). -/
theorem c10_resolution_increments_only_counter :
    ∀ (regen : List ShortLinkRow → String) (db : List ShortLinkRow)
      (url : String),
      (url ≠ "" →
        ∀ (db' : List ShortLinkRow) (res : String),
        get_full_url regen db url = (db', .ok res) →
        ∃ pre token post,
          db = pre ++ token :: post
          ∧ (∀ t ∈ pre, t.short_url ≠ url)
          ∧ token.short_url = url
          ∧ token.is_active = true
          ∧ db' = pre
              ++ { token with requests_count := token.requests_count + 1 }
                :: post
          ∧ res = token.full_url)
      ∧ ∀ (e : LinkError), (get_full_url regen db url).2 = .error e →
          (get_full_url regen db url).1 = db := by
  intro regen db url
  constructor
  · intro hurl db' res h
    rw [get_full_url] at h
    cases hf : db.find? (fun t => t.short_url == url) with
    | none =>
      rw [hf] at h
      simp at h
    | some token =>
      rw [hf] at h
      simp only [] at h
      by_cases hact : token.is_active = false
      · rw [if_pos hact] at h
        simp at h
      rw [if_neg hact] at h
      obtain ⟨hp, pre, post, hdb, hpre⟩ := List.find?_eq_some.mp hf
      have htoku : token.short_url = url := by simpa using hp
      have hne : ¬ token.short_url = "" := by
        rw [htoku]
        exact hurl
      rw [if_neg hne] at h
      simp only [Prod.mk.injEq, Except.ok.injEq] at h
      refine ⟨pre, token, post, hdb, ?_, htoku, ?_, ?_, h.2.symm⟩
      · intro t ht
        have := hpre t ht
        simpa using this
      · revert hact
        cases token.is_active <;> simp
      · rw [← h.1, hdb]
        exact updateRow_append pre post token _ url
          (fun t ht => by simpa using hpre t ht) (by simpa using htoku)
  · intro e h
    cases hf : db.find? (fun t => t.short_url == url) with
    | none =>
      rw [get_full_url, hf]
    | some token =>
      rw [get_full_url, hf] at h ⊢
      simp only [] at h ⊢
      by_cases hact : token.is_active = false
      · rw [if_pos hact]
      · rw [if_neg hact] at h
        by_cases hemp : token.short_url = ""
        · rw [if_pos hemp] at h
          simp at h
        · rw [if_neg hemp] at h
          simp at h

/-- Witness for C10: resolving code ab bumps only that row's counter and
returns its full URL; an unknown and an inactive code leave the table
unchanged. -/
theorem c10_witness :
    (∃ pre token post,
      c10Db = pre ++ token :: post
      ∧ (∀ t ∈ pre, t.short_url ≠ "ab")
      ∧ token.short_url = "ab"
      ∧ token.is_active = true
      ∧ (get_full_url (fun _ => "xx") c10Db "ab").1 = pre
          ++ { token with requests_count := token.requests_count + 1 }
            :: post
      ∧ "http://h/recipes/1" = token.full_url)
    ∧ (get_full_url (fun _ => "xx") c10Db "zz").1 = c10Db
    ∧ (get_full_url (fun _ => "xx") c10Db "cd").1 = c10Db :=
  ⟨(c10_resolution_increments_only_counter (fun _ => "xx") c10Db "ab").1
      (by decide) (get_full_url (fun _ => "xx") c10Db "ab").1
      "http://h/recipes/1" rfl,
    (c10_resolution_increments_only_counter (fun _ => "xx") c10Db "zz").2
      .unknownUrl rfl,
    (c10_resolution_increments_only_counter (fun _ => "xx") c10Db "cd").2
      .inactiveUrl rfl⟩

end Foodgram
